import Mathlib

/-!
Verification of the asset-selection DSL and the schedule CLI helpers of this
repository.

The DSL pipeline (lexer, parser, selection-algebra builder, evaluator) is
specified in spec.md sections 3 and 4; its implementation lives outside the
checked-out sources (only its test suite,
dagster_tests/asset_defs_tests/test_antlr_asset_selection.py, is present), so
those components are modelled from the spec, with the one point where the
test suite pins down behaviour the spec text leaves over-broad noted at the
definition of the unquoted-value character class.

The schedule CLI helpers (extract_schedule_name, execute_up_command,
print_changes) are embedded directly from
src/python_modules/dagster/dagster/cli/schedule.py.
-/

namespace DagsterSel

/-! ### Tokens and lexer (spec section 4.1) -/

/-- Token kinds of the selection language: unquoted identifier/value runs,
quoted strings, the traversal markers, and punctuation. -/
inductive Token where
  | ident (s : String)
  | quoted (s : String)
  | plus
  | star
  | colon
  | eq
  | lparen
  | rparen
deriving DecidableEq

/-- The double-quote character. -/
def quoteChar : Char := Char.ofNat 34

/-- Character class of unquoted values: letters, digits, underscore, dot,
slash, dash.  The spec also lists the at-sign, but the repository's test
suite (test_antlr_asset_selection.py line 91) asserts that the unquoted
input owner:owner@owner.com raises, so the at-sign is excluded. -/
def isIdentChar (c : Char) : Bool :=
  c.isAlpha || c.isDigit || c = '_' || c = '.' || c = '/' || c = '-'

/-- Scan the body of a quoted string: returns the content up to the closing
quote and the remaining characters, or none when the quote is unterminated.
Quoted strings preserve their contents verbatim (no escape processing). -/
def spanQuote : List Char → Option (List Char × List Char)
  | [] => none
  | c :: cs =>
    if c = quoteChar then some ([], cs)
    else (spanQuote cs).map (fun p => (c :: p.1, p.2))

/-- Fueled lexer loop over the character list.  Each step consumes at least
one character, so fuel equal to the input length always suffices; running
out of fuel is reported as an error only to make the function total. -/
def lexChars : Nat → List Char → Except String (List Token)
  | 0, _ => .error "lexer fuel exhausted"
  | _, [] => .ok []
  | fuel + 1, c :: cs =>
    if c.isWhitespace then lexChars fuel cs
    else if c = quoteChar then
      match spanQuote cs with
      | some (content, rest) =>
        (Token.quoted (String.mk content) :: ·) <$> lexChars fuel rest
      | none => .error "unterminated quoted string"
    else if isIdentChar c then
      let run := (c :: cs).takeWhile isIdentChar
      let rest := (c :: cs).dropWhile isIdentChar
      (Token.ident (String.mk run) :: ·) <$> lexChars fuel rest
    else if c = '+' then (Token.plus :: ·) <$> lexChars fuel cs
    else if c = '*' then (Token.star :: ·) <$> lexChars fuel cs
    else if c = ':' then (Token.colon :: ·) <$> lexChars fuel cs
    else if c = '=' then (Token.eq :: ·) <$> lexChars fuel cs
    else if c = '(' then (Token.lparen :: ·) <$> lexChars fuel cs
    else if c = ')' then (Token.rparen :: ·) <$> lexChars fuel cs
    else .error "invalid character"

/-- Modelled from the spec: tokenize (section 4.1) turns the selection string
into a token stream or fails with a lex error (offsets elided; only
success/failure and the token stream are observed by the claims). -/
def tokenize (s : String) : Except String (List Token) :=
  lexChars (s.length + 1) s.toList

/-! ### Syntax trees (spec section 3) -/

/-- Traversal depth: a finite hop count or unbounded. -/
inductive Depth where
  | finite (n : Nat)
  | unbounded
deriving DecidableEq

/-- Recognized attribute names (spec section 4.2). -/
inductive Attr where
  | key
  | key_substring
  | tag
  | owner
  | group
  | kind
  | code_location
deriving DecidableEq

/-- Recognized function names (spec section 4.2). -/
inductive FuncName where
  | sinks
  | roots
deriving DecidableEq

/-- SyntaxNode of spec section 3: the tagged union produced by the parser. -/
inductive AstNode where
  | wildcard
  | attributeExpr (a : Attr) (value : String) (optValue : Option String)
  | functionCall (f : FuncName) (arg : AstNode)
  | not (e : AstNode)
  | and (l r : AstNode)
  | or (l r : AstNode)
  | group (e : AstNode)
  | traversal (e : AstNode) (upDepth downDepth : Option Depth)
deriving DecidableEq

/-! ### Parser (spec section 4.2) -/

/-- Map a lexed identifier to a recognized attribute name. -/
def attrOfString : String → Option Attr
  | "key" => some .key
  | "key_substring" => some .key_substring
  | "tag" => some .tag
  | "owner" => some .owner
  | "group" => some .group
  | "kind" => some .kind
  | "code_location" => some .code_location
  | _ => none

/-- A value is a single unquoted or quoted token. -/
def parseValue : List Token → Option (String × List Token)
  | .ident v :: ts => some (v, ts)
  | .quoted v :: ts => some (v, ts)
  | _ => none

/-- Count a run of plus tokens. -/
def countPlus : List Token → Nat × List Token
  | .plus :: ts => let p := countPlus ts; (p.1 + 1, p.2)
  | ts => (0, ts)

/-- Read an optional traversal marker: a single star (unbounded) or a run of
pluses (finite depth equal to the run length). -/
def readMarker : List Token → Option Depth × List Token
  | .star :: ts => (some .unbounded, ts)
  | .plus :: ts => let p := countPlus ts; (some (.finite (p.1 + 1)), p.2)
  | ts => (none, ts)

/-- Whether the next token can begin a traversal-allowed atom (an attribute
expression, a function call, or a parenthesized expression). -/
def startsAtom : List Token → Bool
  | .ident _ :: _ => true
  | .lparen :: _ => true
  | _ => false

mutual

/-- orExpr := andExpr (or andExpr)*, left-associative. -/
def parseOr : Nat → List Token → Except String (AstNode × List Token)
  | 0, _ => .error "parser fuel exhausted"
  | fuel + 1, ts => do
    let (l, ts) ← parseAnd fuel ts
    parseOrRest fuel l ts

/-- Left-associative continuation of orExpr. -/
def parseOrRest : Nat → AstNode → List Token → Except String (AstNode × List Token)
  | 0, _, _ => .error "parser fuel exhausted"
  | fuel + 1, l, .ident "or" :: ts => do
    let (r, ts) ← parseAnd fuel ts
    parseOrRest fuel (.or l r) ts
  | _ + 1, l, ts => .ok (l, ts)

/-- andExpr := notExpr (and notExpr)*, left-associative. -/
def parseAnd : Nat → List Token → Except String (AstNode × List Token)
  | 0, _ => .error "parser fuel exhausted"
  | fuel + 1, ts => do
    let (l, ts) ← parseNot fuel ts
    parseAndRest fuel l ts

/-- Left-associative continuation of andExpr. -/
def parseAndRest : Nat → AstNode → List Token → Except String (AstNode × List Token)
  | 0, _, _ => .error "parser fuel exhausted"
  | fuel + 1, l, .ident "and" :: ts => do
    let (r, ts) ← parseNot fuel ts
    parseAndRest fuel (.and l r) ts
  | _ + 1, l, ts => .ok (l, ts)

/-- notExpr := not notExpr | traversalExpr. -/
def parseNot : Nat → List Token → Except String (AstNode × List Token)
  | 0, _ => .error "parser fuel exhausted"
  | fuel + 1, .ident "not" :: ts => do
    let (e, ts) ← parseNot fuel ts
    .ok (.not e, ts)
  | fuel + 1, ts => parseTrav fuel ts

/-- traversalExpr: an optional marker, a traversal-allowed atom, an optional
marker; or a bare star (the wildcard), to which no marker attaches (the test
suite rejects a star followed by a marker and a doubled star). -/
def parseTrav : Nat → List Token → Except String (AstNode × List Token)
  | 0, _ => .error "parser fuel exhausted"
  | fuel + 1, .star :: ts =>
    if startsAtom ts then do
      let (e, ts) ← parseAtom fuel ts
      let m := readMarker ts
      .ok (.traversal e (some .unbounded) m.1, m.2)
    else .ok (.wildcard, ts)
  | fuel + 1, .plus :: ts => do
    let p := countPlus ts
    let (e, ts) ← parseAtom fuel p.2
    let m := readMarker ts
    .ok (.traversal e (some (.finite (p.1 + 1))) m.1, m.2)
  | fuel + 1, ts => do
    let (e, ts) ← parseAtom fuel ts
    let m := readMarker ts
    match m.1 with
    | none => .ok (e, ts)
    | some d => .ok (.traversal e none (some d), m.2)

/-- Traversal-allowed atom: attribute expression, function call, or
parenthesized expression.  Only tag accepts an optional equals-value suffix;
a missing value, a missing colon, a missing parenthesis, or an unknown
attribute or function name is a parse error. -/
def parseAtom : Nat → List Token → Except String (AstNode × List Token)
  | 0, _ => .error "parser fuel exhausted"
  | fuel + 1, .ident name :: ts =>
    if name = "sinks" ∨ name = "roots" then
      match ts with
      | .lparen :: ts => do
        let (e, ts) ← parseOr fuel ts
        match ts with
        | .rparen :: ts =>
          .ok (.functionCall (if name = "sinks" then .sinks else .roots) e, ts)
        | _ => .error "expected closing parenthesis"
      | _ => .error "expected opening parenthesis after function name"
    else
      match attrOfString name with
      | some a =>
        match ts with
        | .colon :: ts =>
          match parseValue ts with
          | some (v, ts) =>
            match a, ts with
            | .tag, .eq :: ts2 =>
              match parseValue ts2 with
              | some (v2, ts3) => .ok (.attributeExpr .tag v (some v2), ts3)
              | none => .error "expected value after equals sign"
            | _, _ => .ok (.attributeExpr a v none, ts)
          | none => .error "expected value after colon"
        | _ => .error "expected colon after attribute name"
      | none => .error "unknown attribute or function name"
  | fuel + 1, .lparen :: ts => do
    let (e, ts) ← parseOr fuel ts
    match ts with
    | .rparen :: ts => .ok (.group e, ts)
    | _ => .error "expected closing parenthesis"
  | _ + 1, _ => .error "expected expression"

end

/-- Error taxonomy of spec section 7 as far as the claims observe it: a lex
error or a parse error, each carrying a message. -/
inductive SelErr where
  | lexErr (msg : String)
  | parseErr (msg : String)
deriving DecidableEq

/-- Modelled from the spec: parse (section 4.2) consumes the token stream and
produces the syntax tree; trailing tokens (two expressions juxtaposed without
an operator, stray markers) are a parse error. -/
def parseAst (input : String) : Except SelErr AstNode :=
  match tokenize input with
  | .error m => .error (.lexErr m)
  | .ok ts =>
    match parseOr (ts.length * 8 + 8) ts with
    | .error m => .error (.parseErr m)
    | .ok (e, []) => .ok e
    | .ok (_, _ :: _) => .error (.parseErr "unexpected trailing tokens")

/-- True exactly when the computation failed. -/
def isErr {ε α : Type} : Except ε α → Bool
  | .error _ => true
  | .ok _ => false

/-! ### Selection algebra (spec section 3) -/

/-- The immutable Selection algebra: primitive atoms and combinators.  In a
traversal the depth is a Depth value (finite hop count or unbounded). -/
inductive Selection where
  | assets (keys : List String)
  | keySubstring (text : String)
  | tag (key value : String)
  | owner (name : String)
  | groups (names : List String)
  | codeLocation (name : String)
  | all (includeSources : Bool)
  | not (s : Selection)
  | and (s1 s2 : Selection)
  | or (s1 s2 : Selection)
  | upstream (s : Selection) (depth : Depth)
  | downstream (s : Selection) (depth : Depth)
  | sinks (s : Selection)
  | roots (s : Selection)
deriving DecidableEq

/-- Modelled from the spec: build (section 4.3), the total structural
translation from syntax trees to Selection values.  A traversal node maps to
the union of an upstream and a downstream traversal restricted to whichever
marker is present; an absent side is omitted, not defaulted to depth zero. -/
def build : AstNode → Selection
  | .wildcard => .all true
  | .attributeExpr a v ov =>
    match a with
    | .key => .assets [v]
    | .key_substring => .keySubstring v
    | .tag => .tag v (ov.getD "")
    | .owner => .owner v
    | .group => .groups [v]
    | .kind => .tag ("dagster/kind/" ++ v) ""
    | .code_location => .codeLocation v
  | .functionCall .sinks e => .sinks (build e)
  | .functionCall .roots e => .roots (build e)
  | .not e => .not (build e)
  | .and l r => .and (build l) (build r)
  | .or l r => .or (build l) (build r)
  | .group e => build e
  | .traversal e up? down? =>
    match up?, down? with
    | some u, some d => .or (.upstream (build e) u) (.downstream (build e) d)
    | some u, none => .upstream (build e) u
    | none, some d => .downstream (build e) d
    | none, none => build e

/-- The full pipeline of spec section 2: string to tokens to syntax tree to
Selection value, or the first error met. -/
def parseSelection (input : String) : Except SelErr Selection :=
  (parseAst input).map build

/-! ### Graph view and evaluator (spec sections 3 and 4.4) -/

/-- One node of the graph view: key, tag map (keys unique), owners, optional
group name, kind labels, code location, and whether the node is an
external/source node (used by the include-sources flag of the all atom). -/
structure GNode where
  key : String
  tags : List (String × String)
  owners : List String
  groupName : Option String
  kinds : List String
  codeLocation : String
  isSource : Bool
deriving DecidableEq

/-- The read-only graph view: node list and directed edges; an edge (a, b)
makes b a downstream neighbor of a and a an upstream neighbor of b. -/
structure Graph where
  nodes : List GNode
  edges : List (String × String)

/-- Upstream adjacency of a key. -/
def Graph.upstreamOf (g : Graph) (k : String) : List String :=
  g.edges.filterMap (fun e => if e.2 = k then some e.1 else none)

/-- Downstream adjacency of a key. -/
def Graph.downstreamOf (g : Graph) (k : String) : List String :=
  g.edges.filterMap (fun e => if e.1 = k then some e.2 else none)

/-- The graph's node-key set. -/
def Graph.allKeys (g : Graph) : Finset String :=
  (g.nodes.map GNode.key).toFinset

/-- Keys of the nodes satisfying a predicate on node attributes. -/
def Graph.keysWhere (g : Graph) (p : GNode → Bool) : Finset String :=
  ((g.nodes.filter p).map GNode.key).toFinset

/-- Whether the first character list occurs at the start of the second. -/
def startsWithChars : List Char → List Char → Bool
  | [], _ => true
  | _ :: _, [] => false
  | c :: cs, d :: ds => c == d && startsWithChars cs ds

/-- Whether the first character list occurs contiguously anywhere in the
second (the substring test used by the key-substring atom). -/
def containsRun (pat : List Char) : List Char → Bool
  | [] => pat.isEmpty
  | c :: cs => startsWithChars pat (c :: cs) || containsRun pat cs

/-- Tag match of spec section 4.4: an empty value matches any value present
for the key (presence-only); a non-empty value must match exactly. -/
def matchesTag (n : GNode) (k v : String) : Bool :=
  if v = "" then n.tags.any (fun p => p.1 == k)
  else n.tags.any (fun p => p.1 == k && p.2 == v)

/-- One breadth-first expansion step over an adjacency: the set together
with every neighbor of the set. -/
def stepAdj (adj : String → List String) (s : Finset String) : Finset String :=
  s ∪ s.biUnion (fun k => (adj k).toFinset)

/-- Bounded breadth-first closure: expand up to the given number of hops;
zero hops is the set unchanged. -/
def expandDepth (adj : String → List String) : Nat → Finset String → Finset String
  | 0, s => s
  | n + 1, s => expandDepth adj n (stepAdj adj s)

/-- Unbounded breadth-first closure: expand until a fixpoint.  Every
productive step adds a key drawn from the finite pool of edge endpoints, so
fuel one more than the edge count always reaches the fixpoint; visited nodes
are the accumulated set itself, so cyclic adjacency cannot loop. -/
def expandFix (adj : String → List String) : Nat → Finset String → Finset String
  | 0, s => s
  | n + 1, s =>
    let t := stepAdj adj s
    if t = s then s else expandFix adj n t

/-- Traversal closure for a Depth value. -/
def traverse (g : Graph) (adj : String → List String) : Depth → Finset String → Finset String
  | .finite n, s => expandDepth adj n s
  | .unbounded, s => expandFix adj (g.edges.length + 1) s

/-- Modelled from the spec: evaluate (section 4.4) maps a Selection and a
graph view to the set of selected node keys.  Unknown keys and absent
attributes are filtered, never errors, so evaluation is total. -/
def evaluate : Selection → Graph → Finset String
  | .assets keys, g => g.keysWhere (fun n => keys.contains n.key)
  | .keySubstring t, g => g.keysWhere (fun n => containsRun t.toList n.key.toList)
  | .tag k v, g => g.keysWhere (fun n => matchesTag n k v)
  | .owner o, g => g.keysWhere (fun n => n.owners.contains o)
  | .groups names, g =>
    g.keysWhere (fun n => match n.groupName with
      | some gn => names.contains gn
      | none => false)
  | .codeLocation c, g => g.keysWhere (fun n => n.codeLocation == c)
  | .all includeSources, g =>
    if includeSources then g.allKeys else g.keysWhere (fun n => !n.isSource)
  | .not s, g => g.allKeys \ evaluate s g
  | .and a b, g => evaluate a g ∩ evaluate b g
  | .or a b, g => evaluate a g ∪ evaluate b g
  | .upstream s d, g => traverse g g.upstreamOf d (evaluate s g)
  | .downstream s d, g => traverse g g.downstreamOf d (evaluate s g)
  | .sinks s, g =>
    (evaluate s g).filter
      (fun k => ∀ m ∈ g.downstreamOf k, m ∉ evaluate s g)
  | .roots s, g =>
    (evaluate s g).filter
      (fun k => ∀ m ∈ g.upstreamOf k, m ∉ evaluate s g)

end DagsterSel

namespace DagsterCli

/-! ### Schedule CLI helpers, embedded from
src/python_modules/dagster/dagster/cli/schedule.py -/

/-- The runtime shapes the schedule_name argument of extract_schedule_name
can take at its call sites: None, a plain string, or a (non-string) sequence
of strings, as produced by a click argument with unlimited arity. -/
inductive ScheduleNameArg where
  | noneArg
  | str (s : String)
  | seq (xs : List String)
deriving DecidableEq

/-- Python truthiness of the argument: None is falsy, a string or sequence
is truthy exactly when non-empty. -/
def ScheduleNameArg.truthy : ScheduleNameArg → Bool
  | .noneArg => false
  | .str s => s ≠ ""
  | .seq xs => xs ≠ []

/-- Whether the argument is a string instance. -/
def ScheduleNameArg.isStringInstance : ScheduleNameArg → Bool
  | .str _ => true
  | _ => false

/-- Embedded from extract_schedule_name (schedule.py lines 216 to 225): when
the argument is truthy and not a string, a length-one sequence yields its
sole element and any longer sequence trips check.failed; every other path
falls off the end of the function and returns None. -/
def extract_schedule_name : ScheduleNameArg → Except String (Option String)
  | .noneArg => .ok none
  | .str _ => .ok none
  | .seq xs =>
    if xs = [] then .ok none
    else
      match xs with
      | [x] => .ok (some x)
      | _ => .error "Can only handle zero or one schedule args."

/-- One entry of a scheduler change set: change type (add, change, remove),
schedule name, and for updates the per-field diffs, each a field name with
either an old/new pair or a single description. -/
inductive ChangeType where
  | add
  | change
  | remove
deriving DecidableEq

/-- A change-set entry as consumed by print_changes. -/
structure Change where
  ctype : ChangeType
  name : String
  diffs : List (String × List String)
deriving DecidableEq

/-- Observable effects of the schedule up command: lines printed through
print_fn, and calls to scheduler_handle.up, the sole collaborator call that
creates, modifies, or deletes schedule state. -/
inductive Effect where
  | printed (s : String)
  | schedulerUp (pythonPath repositoryPath : String)
deriving DecidableEq

/-- Rendering of one field diff: an old/new pair becomes the arrow line,
anything else is printed as is (schedule.py lines 69 to 82). -/
def diffLine (fieldName : String) : List String → String
  | [old, new] => "\t " ++ fieldName ++ ": " ++ old ++ " => " ++ new
  | other => "\t " ++ fieldName ++ ": " ++ String.intercalate ", " other

/-- Lines printed for a single change-set entry (schedule.py lines 61 to 85;
click.style coloring is elided, the text is kept). -/
def changeLines (c : Change) : List Effect :=
  match c.ctype with
  | .add => [.printed ("  + " ++ c.name ++ " (add)")]
  | .change =>
    .printed ("  ~ " ++ c.name ++ " (update)") ::
    c.diffs.map (fun d => .printed (diffLine d.1 d.2))
  | .remove => [.printed ("  - " ++ c.name ++ " (delete)")]

/-- Embedded from print_changes (schedule.py lines 52 to 86): an empty
change set prints the no-changes banner and the unchanged count; otherwise
the changes header followed by the lines of each entry in order. -/
def print_changes (changeset : List Change) (numScheduleDefs : Nat) : List Effect :=
  if changeset.length = 0 then
    [.printed "No changes to schedules.",
     .printed (toString numScheduleDefs ++ " schedules unchanged")]
  else
    .printed "Changes:" :: (changeset.map changeLines).flatten

/-- The scheduler handle as execute_up_command observes it: the change set
and schedule-definition count read by print_changes, and whether the up call
would raise DagsterInvariantViolationError. -/
structure SchedulerHandle where
  changeset : List Change
  numScheduleDefs : Nat
  upRaises : Bool
deriving DecidableEq

/-- The context execute_up_command runs in after the collaborator reads at
its top (handle, repository, instance): repository name, interpreter and
repository paths, and the optional scheduler handle. -/
structure UpContext where
  repositoryName : String
  pythonPath : String
  repositoryPath : String
  handle : Option SchedulerHandle
deriving DecidableEq

/-- How the command run ended: normal return or a click.UsageError raised
from a DagsterInvariantViolationError out of the up call. -/
inductive UpResult where
  | ok
  | usageError
deriving DecidableEq

/-- Embedded from execute_up_command (schedule.py lines 125 to 145): with no
scheduler handle it prints a notice and returns; with preview set it prints
the change set and returns; otherwise it calls scheduler_handle.up, turning
a DagsterInvariantViolationError into a usage error. -/
def execute_up_command (preview : Bool) (ctx : UpContext) : List Effect × UpResult :=
  match ctx.handle with
  | none =>
    ([.printed ("Scheduler not defined for repository " ++ ctx.repositoryName)], .ok)
  | some h =>
    if preview then (print_changes h.changeset h.numScheduleDefs, .ok)
    else if h.upRaises then
      ([.schedulerUp ctx.pythonPath ctx.repositoryPath], .usageError)
    else ([.schedulerUp ctx.pythonPath ctx.repositoryPath], .ok)

end DagsterCli

namespace DagsterSel

/-- The linear chain graph a to b to c used by the repository's evaluation
tests: a carries the tag foo equal to bar and an owner, b carries two kind
labels, c carries a group name. -/
def gChain : Graph where
  nodes := [
    ⟨"a", [("foo", "bar")], ["team:billing"], none, [], "my_location", false⟩,
    ⟨"b", [], [], none, ["python", "snowflake"], "my_location", false⟩,
    ⟨"c", [], [], some "my_group", [], "my_location", false⟩]
  edges := [("a", "b"), ("b", "c")]

end DagsterSel

open DagsterSel DagsterCli

/-- Every line of a single change-set entry is a print effect. -/
theorem changeLines_only_prints (c : Change) (e : Effect) (he : e ∈ changeLines c) :
    ∃ s, e = .printed s := by
  rcases c with ⟨ct, nm, diffs⟩
  cases ct
  · simp only [changeLines, List.mem_singleton] at he
    exact ⟨_, he⟩
  · simp only [changeLines, List.mem_cons, List.mem_map] at he
    rcases he with rfl | ⟨d, _, rfl⟩
    · exact ⟨_, rfl⟩
    · exact ⟨_, rfl⟩
  · simp only [changeLines, List.mem_singleton] at he
    exact ⟨_, he⟩

/-- print_changes only prints: it performs no scheduler mutation. -/
theorem print_changes_only_prints (cs : List Change) (n : Nat) (e : Effect)
    (he : e ∈ print_changes cs n) : ∃ s, e = .printed s := by
  unfold print_changes at he
  split at he
  · simp only [List.mem_cons, List.not_mem_nil, or_false] at he
    rcases he with rfl | rfl
    · exact ⟨_, rfl⟩
    · exact ⟨_, rfl⟩
  · simp only [List.mem_cons, List.mem_flatten, List.mem_map] at he
    rcases he with rfl | ⟨l, ⟨c, hc, rfl⟩, hel⟩
    · exact ⟨_, rfl⟩
    · exact changeLines_only_prints c e hel

/-- Claim C1, as stated, is false on this code: the repository's test suite
(test_antlr_asset_selection.py line 91) lists the unquoted input
owner:owner@owner.com among the strings that must raise, and the modelled
lexer accordingly rejects the at-sign, so no Selection is produced. -/
theorem owner_at_unquoted_rejected_cx :
    isErr (parseSelection "owner:owner@owner.com") = true := rfl

/-- Claim C1 (amended): an unquoted attribute value may contain letters,
digits, underscore, dot, slash and dash, but not the at-sign; the input
owner:owner@owner.com fails with a LexError, while its quoted form
parses to the Owner selection. -/
theorem unquoted_value_class_excludes_at :
    isErr (parseSelection "owner:owner@owner.com") = true ∧
    parseSelection "owner:\"owner@owner.com\"" = .ok (.owner "owner@owner.com") ∧
    parseSelection "key:a_b./-0Z" = .ok (.assets ["a_b./-0Z"]) ∧
    (isIdentChar '_' && isIdentChar '.' && isIdentChar '/' && isIdentChar '-' &&
      isIdentChar 'a' && isIdentChar 'Z' && isIdentChar '7') = true ∧
    isIdentChar '@' = false :=
  ⟨rfl, rfl, rfl, rfl, rfl⟩

/-- Claim C2: each of the five malformed inputs fails with a lex or parse
error, and the pipeline therefore never yields a Selection value for them
(the result type carries either an error or a Selection, never both). -/
theorem invalid_strings_yield_no_selection :
    isErr (parseSelection "+") = true ∧
    isErr (parseSelection "key:a key:b") = true ∧
    isErr (parseSelection "key:a and") = true ∧
    isErr (parseSelection "sinks") = true ∧
    isErr (parseSelection "tag:foo=") = true :=
  ⟨rfl, rfl, rfl, rfl, rfl⟩

/-- Claim C3: a traversal node with both markers builds the union of the
upstream and downstream traversals; a marker on only one side builds only
that side, the absent side being omitted rather than defaulted to depth
zero; concretely, +key:a+ builds the depth-one union, *key:a only unbounded
upstream, and key:a* only unbounded downstream. -/
theorem traversal_marker_sides_build :
    (∀ (e : AstNode) (u d : Depth),
      build (.traversal e (some u) (some d)) =
        .or (.upstream (build e) u) (.downstream (build e) d)) ∧
    (∀ (e : AstNode) (u : Depth),
      build (.traversal e (some u) none) = .upstream (build e) u) ∧
    (∀ (e : AstNode) (d : Depth),
      build (.traversal e none (some d)) = .downstream (build e) d) ∧
    parseSelection "+key:a+" =
      .ok (.or (.upstream (.assets ["a"]) (.finite 1))
        (.downstream (.assets ["a"]) (.finite 1))) ∧
    parseSelection "*key:a" = .ok (.upstream (.assets ["a"]) .unbounded) ∧
    parseSelection "key:a*" = .ok (.downstream (.assets ["a"]) .unbounded) :=
  ⟨fun _ _ _ => rfl, fun _ _ => rfl, fun _ _ => rfl, rfl, rfl, rfl⟩

/-- Claim C4: a tag attribute without a value builds Tag with the empty
value, one with a value builds the exact pair, and at evaluation the empty
value matches any node whose tag map contains the key (presence-only) while
a non-empty value must be mapped exactly. -/
theorem tag_presence_and_exact_match :
    (∀ k, build (.attributeExpr .tag k none) = .tag k "") ∧
    (∀ k v, build (.attributeExpr .tag k (some v)) = .tag k v) ∧
    parseSelection "tag:foo" = .ok (.tag "foo" "") ∧
    parseSelection "tag:foo=bar" = .ok (.tag "foo" "bar") ∧
    (∀ (g : Graph) (k v x : String),
      x ∈ evaluate (.tag k v) g ↔
        ∃ n ∈ g.nodes, n.key = x ∧
          (if v = "" then ∃ u, (k, u) ∈ n.tags else (k, v) ∈ n.tags)) := by
  refine ⟨fun _ => rfl, fun _ _ => rfl, rfl, rfl, ?_⟩
  intro g k v x
  simp only [evaluate, Graph.keysWhere, List.mem_toFinset, List.mem_map, List.mem_filter,
    matchesTag]
  constructor
  · rintro ⟨n, ⟨hn, hc⟩, rfl⟩
    refine ⟨n, hn, rfl, ?_⟩
    by_cases hv : v = ""
    · rw [if_pos hv] at hc
      rw [if_pos hv]
      rcases List.any_eq_true.mp hc with ⟨p, hp, he⟩
      rcases p with ⟨a, b⟩
      have ha : a = k := by simpa using he
      exact ⟨b, ha ▸ hp⟩
    · rw [if_neg hv] at hc
      rw [if_neg hv]
      rcases List.any_eq_true.mp hc with ⟨p, hp, he⟩
      rcases p with ⟨a, b⟩
      have hab : a = k ∧ b = v := by simpa using he
      rw [← hab.1, ← hab.2]
      exact hp
  · rintro ⟨n, hn, rfl, hcond⟩
    refine ⟨n, ⟨hn, ?_⟩, rfl⟩
    by_cases hv : v = ""
    · rw [if_pos hv] at hcond
      rw [if_pos hv]
      rcases hcond with ⟨u, hu⟩
      exact List.any_eq_true.mpr ⟨(k, u), hu, by simp⟩
    · rw [if_neg hv] at hcond
      rw [if_neg hv]
      exact List.any_eq_true.mpr ⟨(k, v), hcond, by simp⟩

/-- Claim C5: the kind attribute is sugar over the reserved tag namespace;
building it yields exactly the presence-only Tag on the reserved key, and
the concrete input kind:my_kind builds the same Selection as the tag
attribute on the reserved key. -/
theorem kind_is_reserved_tag_sugar :
    (∀ v, build (.attributeExpr .kind v none) = .tag ("dagster/kind/" ++ v) "") ∧
    parseSelection "kind:my_kind" = .ok (.tag "dagster/kind/my_kind" "") ∧
    parseSelection "kind:my_kind" = parseSelection "tag:\"dagster/kind/my_kind\"" :=
  ⟨fun _ => rfl, rfl, rfl⟩

/-- Claim C6: a traversal at depth zero is the identity on evaluation, in
both directions, for every Selection and every graph. -/
theorem traversal_depth_zero_identity :
    ∀ (s : Selection) (g : Graph),
      evaluate (.upstream s (.finite 0)) g = evaluate s g ∧
      evaluate (.downstream s (.finite 0)) g = evaluate s g :=
  fun _ _ => ⟨rfl, rfl⟩

/-- Claim C7: sinks and roots of a Selection evaluate to subsets of the
Selection's own evaluation, and membership is exactly membership in the
evaluated set with no downstream (respectively upstream) neighbor also in
that set. -/
theorem sinks_roots_subset :
    ∀ (s : Selection) (g : Graph),
      evaluate (.sinks s) g ⊆ evaluate s g ∧
      evaluate (.roots s) g ⊆ evaluate s g ∧
      (∀ k, k ∈ evaluate (.sinks s) g ↔
        k ∈ evaluate s g ∧ ∀ m ∈ g.downstreamOf k, m ∉ evaluate s g) ∧
      (∀ k, k ∈ evaluate (.roots s) g ↔
        k ∈ evaluate s g ∧ ∀ m ∈ g.upstreamOf k, m ∉ evaluate s g) := by
  intro s g
  refine ⟨?_, ?_, ?_, ?_⟩
  · simp only [evaluate]
    exact Finset.filter_subset _ _
  · simp only [evaluate]
    exact Finset.filter_subset _ _
  · intro k
    simp only [evaluate, Finset.mem_filter]
  · intro k
    simp only [evaluate, Finset.mem_filter]

/-- Claim C8: evaluating an Assets atom intersects the requested keys with
the graph's node-key set; keys absent from the graph are silently dropped,
and evaluation is total, so no error can arise. -/
theorem assets_intersect_graph_keys :
    ∀ (keys : List String) (g : Graph),
      evaluate (.assets keys) g = keys.toFinset ∩ g.allKeys := by
  intro keys g
  ext x
  simp only [evaluate, Graph.keysWhere, Graph.allKeys, List.mem_toFinset, List.mem_map,
    List.mem_filter, Finset.mem_inter]
  constructor
  · rintro ⟨n, ⟨hn, hc⟩, rfl⟩
    exact ⟨by simpa using hc, n, hn, rfl⟩
  · rintro ⟨hx, n, hn, rfl⟩
    exact ⟨n, ⟨hn, by simpa using hx⟩, rfl⟩

/-- Claim C9: extract_schedule_name returns the sole element of a length-one
non-string sequence, trips check.failed on a longer sequence, and returns
None for None, for the empty sequence, and for a plain string (the string
itself is never returned). -/
theorem extract_schedule_name_spec :
    (∀ x, extract_schedule_name (.seq [x]) = .ok (some x)) ∧
    (∀ x y zs, extract_schedule_name (.seq (x :: y :: zs)) =
      .error "Can only handle zero or one schedule args.") ∧
    extract_schedule_name .noneArg = .ok none ∧
    extract_schedule_name (.seq []) = .ok none ∧
    (∀ s, extract_schedule_name (.str s) = .ok none) :=
  ⟨fun _ => rfl, fun _ _ _ => rfl, rfl, rfl, fun _ => rfl⟩

/-- Claim C10: with preview set and a scheduler handle present,
execute_up_command prints exactly the change set and returns normally, and
its effect trace contains no scheduler up call, so no schedule state is
created, modified, or deleted in preview mode. -/
theorem execute_up_preview_no_state_change :
    ∀ (ctx : UpContext) (h : SchedulerHandle), ctx.handle = some h →
      (execute_up_command true ctx).1 = print_changes h.changeset h.numScheduleDefs ∧
      (execute_up_command true ctx).2 = .ok ∧
      ∀ p r, Effect.schedulerUp p r ∉ (execute_up_command true ctx).1 := by
  intro ctx h hh
  have h1 : execute_up_command true ctx =
      (print_changes h.changeset h.numScheduleDefs, .ok) := by
    unfold execute_up_command
    rw [hh]
    simp
  refine ⟨by rw [h1], by rw [h1], ?_⟩
  intro p r hmem
  rw [h1] at hmem
  rcases print_changes_only_prints _ _ _ hmem with ⟨s, hs⟩
  cases hs

/-- Witness for claim C10: the theorem applied to a concrete preview run
with a present scheduler handle. -/
theorem execute_up_preview_no_state_change_witness :
    (execute_up_command true ⟨"demo_repo", "python", "repository.yaml",
      some ⟨[], 1, false⟩⟩).1 = print_changes [] 1 :=
  (execute_up_preview_no_state_change
    ⟨"demo_repo", "python", "repository.yaml", some ⟨[], 1, false⟩⟩
    ⟨[], 1, false⟩ rfl).1
